import Mathlib

/-!
Shallow embedding of `src/shopify_app_store/rich_ui.py` (class `RichDashboard`),
the live terminal dashboard of the shopify-app-store-scraper repository.

The mutable instance fields of `RichDashboard.__init__` become the record
`DashState`; each signal callback / notify method that mutates state becomes a
pure state transformer; `_build_layout` becomes a pure function from a state
and a clock value to a structured `View`.  Presentation markup (colors, emoji,
box-drawing glyphs, thousands separators) is cosmetic per the design and is
not part of the structured view; the numeric and branching content of the
renderer is embedded faithfully.  Python floats are modelled as rationals.
-/

namespace Shopify

/-- The four entry kinds that can occur as first component of an
`activity_log` tuple in `rich_ui.py` (`'success'`, `'error'`,
`'rate_limit'`, `'skip'`). -/
inductive EntryKind
  | success
  | error
  | rate_limit
  | skip
deriving DecidableEq, Repr

/-- One `(kind, subject, detail)` tuple of `self.activity_log`. -/
structure LogEntry where
  kind : EntryKind
  subject : String
  detail : String
deriving DecidableEq, Repr

/-- `deque(maxlen=8)`: the capacity of the activity log. -/
def LOG_CAP : Nat := 8

/-- `self.activity_log.append(e)` on a `deque(maxlen=8)`: append on the
right, evicting from the left whatever exceeds the capacity. -/
def dequeAppend (log : List LogEntry) (e : LogEntry) : List LogEntry :=
  let l := log ++ [e]
  l.drop (l.length - LOG_CAP)

/-- Split a character list on a separator, keeping empty fields, as
Python `str.split(sep)` does; the accumulator holds the current field in
reverse. -/
def splitOnCharAux (sep : Char) : List Char → List Char → List (List Char)
  | [], acc => [acc.reverse]
  | c :: cs, acc =>
    if c = sep then acc.reverse :: splitOnCharAux sep cs []
    else splitOnCharAux sep cs (c :: acc)

/-- Python `s.split(sep)` with a one-character separator: always returns
at least one (possibly empty) field. -/
def splitOnChar (sep : Char) (cs : List Char) : List (List Char) :=
  splitOnCharAux sep cs []

/-- Python `url.split('/')[-1]`: last field of splitting on `'/'`
(`str.split` with an explicit separator always returns at least one
field, so the `[-1]` access cannot fail). -/
def lastSegment (u : String) : String :=
  String.mk ((splitOnChar '/' u.data).getLastD [])

/-- Python `url.rstrip('/')`: drop all trailing `'/'` characters. -/
def rstripSlash (u : String) : String :=
  String.mk ((u.data.reverse.dropWhile (fun c => c = '/')).reverse)

/-- Python `s[:n]`: the first `n` characters. -/
def strTake (s : String) (n : Nat) : String :=
  String.mk (s.data.take n)

/-- The mutable fields of `RichDashboard.__init__` (lines 27-49 of
`rich_ui.py`).  Counters are Python ints, embedded as `ℤ`; `item_counts`
is an insertion-ordered dict, embedded as an association list;
`start_time` is `None` or a `time.time()` value, embedded as `Option ℚ`.
The `console` / `live` / `progress` render handles carry no dashboard
data and are omitted. -/
structure DashState where
  total_apps : ℤ
  scraped_apps : ℤ
  skipped_apps : ℤ
  error_count : ℤ
  rate_limit_count : ℤ
  retry_count : ℤ
  item_counts : List (String × ℤ)
  activity_log : List LogEntry
  start_time : Option ℚ
deriving DecidableEq

/-- The `self.item_counts` dict literal of `__init__`: seven fixed keys,
each starting at 0, in source order. -/
def initItemCounts : List (String × ℤ) :=
  [("App", 0), ("KeyBenefit", 0), ("PricingPlan", 0), ("PricingPlanFeature", 0),
   ("Category", 0), ("AppCategory", 0), ("AppReview", 0)]

/-- The state built by `RichDashboard.__init__`. -/
def initState : DashState :=
  { total_apps := 0
    scraped_apps := 0
    skipped_apps := 0
    error_count := 0
    rate_limit_count := 0
    retry_count := 0
    item_counts := initItemCounts
    activity_log := []
    start_time := none }

/-- Python `class_name in self.item_counts`: key membership in the dict. -/
def hasKey (m : List (String × ℤ)) (k : String) : Bool :=
  m.any (fun p => p.1 == k)

/-- Python `self.item_counts[class_name] += 1`: bump the value stored
under key `k` (the dict has unique keys; rewriting each entry whose key
is `k` realises the same update on the association list). -/
def incKey : List (String × ℤ) → String → List (String × ℤ)
  | [], _ => []
  | p :: t, k => (if p.1 = k then (p.1, p.2 + 1) else p) :: incKey t k

/-- Python `self.item_counts["App"]`-style read, as a total lookup with
default 0 (the seven keys are fixed at construction and never removed). -/
def lookupD (m : List (String × ℤ)) (k : String) : ℤ :=
  (m.lookup k).getD 0

/-- `item_scraped(self, item, response, spider)`: take the item's class
name; if it is a key of `item_counts`, increment that tally, otherwise do
nothing.  (`self._refresh()` only redraws and changes no field.) -/
def item_scraped (s : DashState) (class_name : String) : DashState :=
  if hasKey s.item_counts class_name then
    { s with item_counts := incKey s.item_counts class_name }
  else s

/-- `spider_error(self, failure, response, spider)`: increment
`error_count` and append an `('error', app_name, error_msg)` entry, where
`app_name` is the last `/`-segment of `response.url` (or `'unknown'` when
`response` is falsy) and `error_msg` is `str(failure.value)[:60]` (or
`'Unknown error'` when `failure` is falsy).  `failure` is embedded as the
optional stringified failure value, `response_url` as the optional URL. -/
def spider_error (s : DashState) (failure : Option String)
    (response_url : Option String) : DashState :=
  let app_name := match response_url with
    | some u => lastSegment u
    | none => "unknown"
  let error_msg := match failure with
    | some v => strTake v 60
    | none => "Unknown error"
  { s with
    error_count := s.error_count + 1
    activity_log := dequeAppend s.activity_log ⟨.error, app_name, error_msg⟩ }

/-- `response_received(self, response, request, spider)`: only when
`response.status == 429`, increment `rate_limit_count` and append a
`('rate_limit', app_name, '429 Rate Limited')` entry with `app_name` the
last `/`-segment of `request.url`; every other status leaves the state
untouched. -/
def response_received (s : DashState) (status : Nat) (request_url : String) :
    DashState :=
  if status = 429 then
    { s with
      rate_limit_count := s.rate_limit_count + 1
      activity_log :=
        dequeAppend s.activity_log ⟨.rate_limit, lastSegment request_url, "429 Rate Limited"⟩ }
  else s

/-- `notify_scraped(self, app_url)`: increment `scraped_apps` and append a
`('success', app_name, f'{item_counts["App"]} apps total')` entry, with
`app_name` the last `/`-segment of the URL after `rstrip('/')`.  The
source also computes `item_count = sum(self.item_counts.values())` and
discards it; that dead local is not part of the state transformation. -/
def notify_scraped (s : DashState) (app_url : String) : DashState :=
  let app_name := lastSegment (rstripSlash app_url)
  { s with
    scraped_apps := s.scraped_apps + 1
    activity_log :=
      dequeAppend s.activity_log
        ⟨.success, app_name, toString (lookupD s.item_counts "App") ++ " apps total"⟩ }

/-- `notify_skipped(self)`: increment `skipped_apps`; no log entry. -/
def notify_skipped (s : DashState) : DashState :=
  { s with skipped_apps := s.skipped_apps + 1 }

/-- `set_total_apps(self, count)`: overwrite `total_apps`. -/
def set_total_apps (s : DashState) (count : ℤ) : DashState :=
  { s with total_apps := count }

/-- `spider_opened(self, spider)`: set `start_time = time.time()`
unconditionally (the `Live` display it also starts carries no dashboard
data). -/
def spider_opened (s : DashState) (now : ℚ) : DashState :=
  { s with start_time := some now }

/-- One call into the dashboard, tagged by which method it is. -/
inductive Event
  | itemScraped (class_name : String)
  | spiderError (failure : Option String) (response_url : Option String)
  | responseReceived (status : Nat) (request_url : String)
  | notifyScraped (app_url : String)
  | notifySkipped
  | setTotalApps (count : ℤ)
  | spiderOpened (now : ℚ)

/-- Dispatch one event to the corresponding reducer. -/
def applyEvent (s : DashState) : Event → DashState
  | .itemScraped c => item_scraped s c
  | .spiderError f r => spider_error s f r
  | .responseReceived st u => response_received s st u
  | .notifyScraped u => notify_scraped s u
  | .notifySkipped => notify_skipped s
  | .setTotalApps n => set_total_apps s n
  | .spiderOpened t => spider_opened s t

/-- Apply a sequence of events in order. -/
def runFrom (s : DashState) (es : List Event) : DashState :=
  es.foldl applyEvent s

example :
    (runFrom initState [.setTotalApps 3, .notifyScraped "a/b/c", .notifySkipped]).scraped_apps
      = 1 := by decide

example :
    (runFrom initState [.spiderError (some "boom") (some "x/y")]).activity_log
      = [⟨.error, "y", "boom"⟩] := by decide

/-- Python `int(x)` on a (nonnegative-or-negative) rational: truncation
toward zero, realised as truncated division of numerator by denominator. -/
def pyTrunc (q : ℚ) : ℤ :=
  Int.tdiv q.num (q.den : ℤ)

/-- The progress line of `_build_layout`: either the
`'Waiting for sitemap...'` placeholder (when `total_apps` is not
positive) or a bar whose data are the filled cell count
`int(pct / 100 * 30)`, the numerator `scraped_apps + skipped_apps`, the
denominator `total_apps` and the percentage
`(scraped_apps + skipped_apps) / total_apps * 100`. -/
inductive ProgressView
  | waiting
  | bar (filled : ℤ) (done : ℤ) (total : ℤ) (pct : ℚ)
deriving DecidableEq, Repr

/-- One line of the activity panel, tagged by which `if`/`elif` branch of
the formatting loop produced it; `placeholderWaiting` is the
`'Waiting for first response...'` line appended when the log is empty. -/
inductive ActivityLine
  | success (name detail : String)
  | error (name detail : String)
  | rate_limit (name detail : String)
  | skip (name detail : String)
  | placeholderWaiting
deriving DecidableEq, Repr

/-- The branch of the activity-log formatting loop of `_build_layout`
chosen for one entry: one branch per entry kind (the four kinds cover the
`if`/`elif` chain exactly). -/
def formatEntry (e : LogEntry) : ActivityLine :=
  match e.kind with
  | .success => .success e.subject e.detail
  | .error => .error e.subject e.detail
  | .rate_limit => .rate_limit e.subject e.detail
  | .skip => .skip e.subject e.detail

/-- Whether a line came from the `'skip'` branch of the formatting loop. -/
def ActivityLine.fromSkipBranch : ActivityLine → Bool
  | .skip _ _ => true
  | _ => false

/-- The structured content of the frame `_build_layout` returns: the
computed elapsed time and speed, the progress line, the item table rows
(in dict order), their sum, and the activity-panel lines.  Markup,
colors and glyphs are cosmetic and omitted. -/
structure View where
  elapsed : ℚ
  speed : ℚ
  progress : ProgressView
  totalItems : ℤ
  itemRows : List (String × ℤ)
  activityLines : List ActivityLine
deriving DecidableEq

/-- `elapsed = time.time() - self.start_time if self.start_time else 0`:
note Python truthiness makes both `None` and `0` take the `else` arm. -/
def elapsedOf (s : DashState) (now : ℚ) : ℚ :=
  match s.start_time with
  | some t => if t = 0 then 0 else now - t
  | none => 0

/-- `sum(self.item_counts.values())`. -/
def totalItemsOf (m : List (String × ℤ)) : ℤ :=
  (m.map Prod.snd).sum

/-- `_build_layout(self)`, as a pure function of the state and the clock:
speed is `scraped_apps / elapsed * 60` guarded by `elapsed > 0`; the
progress line is guarded by `total_apps > 0`; the activity lines map the
log through the `if`/`elif` formatting chain, with the waiting
placeholder when the log is empty. -/
def buildLayout (s : DashState) (now : ℚ) : View :=
  let elapsed := elapsedOf s now
  let speed : ℚ := if 0 < elapsed then (s.scraped_apps : ℚ) / elapsed * 60 else 0
  let progress : ProgressView :=
    if 0 < s.total_apps then
      let pct : ℚ := ((s.scraped_apps + s.skipped_apps : ℤ) : ℚ) / (s.total_apps : ℚ) * 100
      .bar (pyTrunc (pct / 100 * 30)) (s.scraped_apps + s.skipped_apps) s.total_apps pct
    else .waiting
  let rawLines := s.activity_log.map formatEntry
  let lines := if rawLines.isEmpty then [ActivityLine.placeholderWaiting] else rawLines
  { elapsed := elapsed
    speed := speed
    progress := progress
    totalItems := totalItemsOf s.item_counts
    itemRows := s.item_counts
    activityLines := lines }

/-- `_build_layout` as a state-passing computation: the method reads
instance fields and assigns none, so the state it hands back is the one
it received. -/
def renderStep (s : DashState) (now : ℚ) : View × DashState :=
  (buildLayout s now, s)

/-! ### Helper lemmas: the activity-log deque -/

theorem dequeAppend_length_le (l : List LogEntry) (e : LogEntry) :
    (dequeAppend l e).length ≤ LOG_CAP := by
  simp only [dequeAppend, List.length_drop, List.length_append, List.length_singleton, LOG_CAP]
  omega

theorem dequeAppend_length (l : List LogEntry) (e : LogEntry) :
    (dequeAppend l e).length = min (l.length + 1) LOG_CAP := by
  simp only [dequeAppend, List.length_drop, List.length_append, List.length_singleton, LOG_CAP]
  omega

theorem mem_dequeAppend {l : List LogEntry} {e x : LogEntry}
    (h : x ∈ dequeAppend l e) : x ∈ l ∨ x = e := by
  have h' : x ∈ l ++ [e] := List.mem_of_mem_drop h
  rcases List.mem_append.1 h' with h'' | h''
  · exact Or.inl h''
  · exact Or.inr (List.mem_singleton.1 h'')

theorem dequeAppend_getLast (l : List LogEntry) (e : LogEntry) :
    (dequeAppend l e).getLast? = some e := by
  have hk : (l ++ [e]).length - LOG_CAP ≤ l.length := by
    simp only [List.length_append, List.length_singleton, LOG_CAP]
    omega
  show ((l ++ [e]).drop ((l ++ [e]).length - LOG_CAP)).getLast? = some e
  rw [List.drop_append_of_le_length hk, List.getLast?_concat]

/-! ### Helper lemmas: the item-count association list -/

theorem incKey_keys (m : List (String × ℤ)) (c : String) :
    (incKey m c).map Prod.fst = m.map Prod.fst := by
  induction m with
  | nil => rfl
  | cons a t ih =>
    by_cases hc : a.1 = c <;> simp [incKey, hc, ih]

theorem incKey_cons_eq {a1 c : String} (a2 : ℤ) (t : List (String × ℤ))
    (h : a1 = c) : incKey ((a1, a2) :: t) c = (a1, a2 + 1) :: incKey t c := by
  simp [incKey, h]

theorem incKey_cons_ne {a1 c : String} (a2 : ℤ) (t : List (String × ℤ))
    (h : ¬a1 = c) : incKey ((a1, a2) :: t) c = (a1, a2) :: incKey t c := by
  simp [incKey, h]

theorem lookupD_cons_eq {a1 k : String} {a2 : ℤ} {t : List (String × ℤ)}
    (h : a1 = k) : lookupD ((a1, a2) :: t) k = a2 := by
  subst h
  simp [lookupD, List.lookup]

theorem lookupD_cons_ne {a1 k : String} {a2 : ℤ} {t : List (String × ℤ)}
    (h : ¬a1 = k) : lookupD ((a1, a2) :: t) k = lookupD t k := by
  have hb : (k == a1) = false := beq_eq_false_iff_ne.2 (fun hkk => h hkk.symm)
  simp [lookupD, List.lookup, hb]

theorem incKey_nonneg {m : List (String × ℤ)} {c : String}
    (h : ∀ p ∈ m, 0 ≤ p.2) : ∀ p ∈ incKey m c, 0 ≤ p.2 := by
  induction m with
  | nil => simp [incKey]
  | cons a t ih =>
    obtain ⟨a1, a2⟩ := a
    have ht : ∀ q ∈ t, 0 ≤ q.2 := fun q hq => h q (List.mem_cons_of_mem _ hq)
    have ha : (0 : ℤ) ≤ a2 := h (a1, a2) (List.mem_cons_self _ _)
    by_cases hc : a1 = c
    · rw [incKey_cons_eq a2 t hc]
      intro p hp
      rcases List.mem_cons.1 hp with hp | hp
      · subst hp
        show (0 : ℤ) ≤ a2 + 1
        omega
      · exact ih ht p hp
    · rw [incKey_cons_ne a2 t hc]
      intro p hp
      rcases List.mem_cons.1 hp with hp | hp
      · subst hp
        exact ha
      · exact ih ht p hp

theorem lookupD_incKey_le (m : List (String × ℤ)) (c k : String) :
    lookupD m k ≤ lookupD (incKey m c) k := by
  induction m with
  | nil => simp [incKey]
  | cons a t ih =>
    obtain ⟨a1, a2⟩ := a
    by_cases hc : a1 = c
    · rw [incKey_cons_eq a2 t hc]
      by_cases hk : a1 = k
      · rw [lookupD_cons_eq hk, lookupD_cons_eq hk]
        omega
      · rw [lookupD_cons_ne hk, lookupD_cons_ne hk]
        exact ih
    · rw [incKey_cons_ne a2 t hc]
      by_cases hk : a1 = k
      · rw [lookupD_cons_eq hk, lookupD_cons_eq hk]
      · rw [lookupD_cons_ne hk, lookupD_cons_ne hk]
        exact ih

theorem lookupD_incKey_self {m : List (String × ℤ)} {c : String}
    (h : hasKey m c = true) : lookupD (incKey m c) c = lookupD m c + 1 := by
  induction m with
  | nil => simp [hasKey] at h
  | cons a t ih =>
    obtain ⟨a1, a2⟩ := a
    by_cases hc : a1 = c
    · rw [incKey_cons_eq a2 t hc, lookupD_cons_eq hc, lookupD_cons_eq hc]
    · have hbc : (a1 == c) = false := beq_eq_false_iff_ne.2 hc
      have ht : hasKey t c = true := by
        simp only [hasKey, List.any_cons, hbc, Bool.false_or] at h
        exact h
      rw [incKey_cons_ne a2 t hc, lookupD_cons_ne hc, lookupD_cons_ne hc]
      exact ih ht

theorem lookupD_incKey_ne {m : List (String × ℤ)} {c k : String} (hkc : k ≠ c) :
    lookupD (incKey m c) k = lookupD m k := by
  induction m with
  | nil => simp [incKey]
  | cons a t ih =>
    obtain ⟨a1, a2⟩ := a
    by_cases hc : a1 = c
    · have hk : ¬a1 = k := fun h => hkc (h ▸ hc)
      rw [incKey_cons_eq a2 t hc, lookupD_cons_ne hk, lookupD_cons_ne hk]
      exact ih
    · by_cases hk : a1 = k
      · rw [incKey_cons_ne a2 t hc, lookupD_cons_eq hk, lookupD_cons_eq hk]
      · rw [incKey_cons_ne a2 t hc, lookupD_cons_ne hk, lookupD_cons_ne hk]
        exact ih

theorem lookupD_nonneg {m : List (String × ℤ)} (h : ∀ p ∈ m, 0 ≤ p.2)
    (k : String) : 0 ≤ lookupD m k := by
  induction m with
  | nil => simp [lookupD]
  | cons a t ih =>
    obtain ⟨a1, a2⟩ := a
    by_cases hk : a1 = k
    · rw [lookupD_cons_eq hk]
      exact h (a1, a2) (List.mem_cons_self _ _)
    · rw [lookupD_cons_ne hk]
      exact ih fun q hq => h q (List.mem_cons_of_mem _ hq)

/-! ### The run invariant -/

/-- Facts preserved by every reducer from the initial state: the four
counters and all item tallies are nonnegative, the log respects its
capacity, and every log entry has one of the three kinds the reducers
actually append. -/
def Inv (s : DashState) : Prop :=
  0 ≤ s.scraped_apps ∧ 0 ≤ s.skipped_apps ∧ 0 ≤ s.error_count ∧
  0 ≤ s.rate_limit_count ∧ (∀ p ∈ s.item_counts, 0 ≤ p.2) ∧
  s.activity_log.length ≤ LOG_CAP ∧
  (∀ e ∈ s.activity_log, e.kind ≠ EntryKind.skip)

theorem inv_init : Inv initState := by
  refine ⟨by decide, by decide, by decide, by decide, by decide, by decide, by decide⟩

theorem inv_apply {s : DashState} (h : Inv s) (e : Event) :
    Inv (applyEvent s e) := by
  obtain ⟨h1, h2, h3, h4, h5, h6, h7⟩ := h
  cases e with
  | itemScraped c =>
    simp only [applyEvent, item_scraped]
    split
    · exact ⟨h1, h2, h3, h4, incKey_nonneg h5, h6, h7⟩
    · exact ⟨h1, h2, h3, h4, h5, h6, h7⟩
  | spiderError f r =>
    refine ⟨h1, h2, by show (0:ℤ) ≤ s.error_count + 1; omega, h4, h5,
      dequeAppend_length_le _ _, ?_⟩
    intro x hx
    rcases mem_dequeAppend hx with hx | hx
    · exact h7 x hx
    · subst hx
      simp
  | responseReceived st u =>
    simp only [applyEvent, response_received]
    split
    · refine ⟨h1, h2, h3, by show (0:ℤ) ≤ s.rate_limit_count + 1; omega, h5,
        dequeAppend_length_le _ _, ?_⟩
      intro x hx
      rcases mem_dequeAppend hx with hx | hx
      · exact h7 x hx
      · subst hx
        simp
    · exact ⟨h1, h2, h3, h4, h5, h6, h7⟩
  | notifyScraped u =>
    refine ⟨by show (0:ℤ) ≤ s.scraped_apps + 1; omega, h2, h3, h4, h5,
      dequeAppend_length_le _ _, ?_⟩
    intro x hx
    rcases mem_dequeAppend hx with hx | hx
    · exact h7 x hx
    · subst hx
      simp
  | notifySkipped =>
    exact ⟨h1, by show (0:ℤ) ≤ s.skipped_apps + 1; omega, h3, h4, h5, h6, h7⟩
  | setTotalApps n => exact ⟨h1, h2, h3, h4, h5, h6, h7⟩
  | spiderOpened t => exact ⟨h1, h2, h3, h4, h5, h6, h7⟩

theorem inv_runFrom (es : List Event) {s : DashState} (h : Inv s) :
    Inv (runFrom s es) := by
  induction es generalizing s with
  | nil => exact h
  | cons e t ih => exact ih (inv_apply h e)

/-- Per-step monotonicity of the four counters and of every item tally,
for every event. -/
theorem counters_le_apply (s : DashState) (e : Event) :
    s.scraped_apps ≤ (applyEvent s e).scraped_apps ∧
    s.skipped_apps ≤ (applyEvent s e).skipped_apps ∧
    s.error_count ≤ (applyEvent s e).error_count ∧
    s.rate_limit_count ≤ (applyEvent s e).rate_limit_count ∧
    ∀ k, lookupD s.item_counts k ≤ lookupD (applyEvent s e).item_counts k := by
  cases e with
  | itemScraped c =>
    simp only [applyEvent, item_scraped]
    split
    · exact ⟨le_refl _, le_refl _, le_refl _, le_refl _,
        fun k => lookupD_incKey_le _ _ _⟩
    · exact ⟨le_refl _, le_refl _, le_refl _, le_refl _, fun k => le_refl _⟩
  | spiderError f r =>
    refine ⟨le_refl _, le_refl _, ?_, le_refl _, fun k => le_refl _⟩
    show s.error_count ≤ s.error_count + 1
    omega
  | responseReceived st u =>
    simp only [applyEvent, response_received]
    split
    · refine ⟨le_refl _, le_refl _, le_refl _, ?_, fun k => le_refl _⟩
      show s.rate_limit_count ≤ s.rate_limit_count + 1
      omega
    · exact ⟨le_refl _, le_refl _, le_refl _, le_refl _, fun k => le_refl _⟩
  | notifyScraped u =>
    refine ⟨?_, le_refl _, le_refl _, le_refl _, fun k => le_refl _⟩
    show s.scraped_apps ≤ s.scraped_apps + 1
    omega
  | notifySkipped =>
    refine ⟨le_refl _, ?_, le_refl _, le_refl _, fun k => le_refl _⟩
    show s.skipped_apps ≤ s.skipped_apps + 1
    omega
  | setTotalApps n =>
    exact ⟨le_refl _, le_refl _, le_refl _, le_refl _, fun k => le_refl _⟩
  | spiderOpened t =>
    exact ⟨le_refl _, le_refl _, le_refl _, le_refl _, fun k => le_refl _⟩

/-- The five dashboard reducers named by the counter claim. -/
def isDashReducer : Event → Bool
  | .itemScraped _ => true
  | .spiderError _ _ => true
  | .responseReceived _ _ => true
  | .notifyScraped _ => true
  | .notifySkipped => true
  | .setTotalApps _ => false
  | .spiderOpened _ => false

/-- C1: starting from the initial state, along any sequence of calls to
the five reducers `item_scraped`, `spider_error`, `response_received`,
`notify_scraped`, `notify_skipped`, the counters `scraped_apps`,
`skipped_apps`, `error_count`, `rate_limit_count` and every `item_counts`
value are non-negative, and one further reducer call never decreases any
of them. -/
theorem counters_nonneg_and_monotone (es : List Event)
    (_hes : ∀ e ∈ es, isDashReducer e = true) (e : Event)
    (_he : isDashReducer e = true) :
    (0 ≤ (runFrom initState es).scraped_apps ∧
     0 ≤ (runFrom initState es).skipped_apps ∧
     0 ≤ (runFrom initState es).error_count ∧
     0 ≤ (runFrom initState es).rate_limit_count ∧
     ∀ k, 0 ≤ lookupD (runFrom initState es).item_counts k) ∧
    ((runFrom initState es).scraped_apps ≤
        (applyEvent (runFrom initState es) e).scraped_apps ∧
     (runFrom initState es).skipped_apps ≤
        (applyEvent (runFrom initState es) e).skipped_apps ∧
     (runFrom initState es).error_count ≤
        (applyEvent (runFrom initState es) e).error_count ∧
     (runFrom initState es).rate_limit_count ≤
        (applyEvent (runFrom initState es) e).rate_limit_count ∧
     ∀ k, lookupD (runFrom initState es).item_counts k ≤
        lookupD (applyEvent (runFrom initState es) e).item_counts k) := by
  obtain ⟨h1, h2, h3, h4, h5, -, -⟩ := inv_runFrom es inv_init
  exact ⟨⟨h1, h2, h3, h4, lookupD_nonneg h5⟩, counters_le_apply _ e⟩

/-- Witness for C1 at the concrete run `[notify_skipped]` followed by
`item_scraped "App"`. -/
theorem counters_nonneg_and_monotone_witness :
    (0 ≤ (runFrom initState [Event.notifySkipped]).scraped_apps ∧
     0 ≤ (runFrom initState [Event.notifySkipped]).skipped_apps ∧
     0 ≤ (runFrom initState [Event.notifySkipped]).error_count ∧
     0 ≤ (runFrom initState [Event.notifySkipped]).rate_limit_count ∧
     ∀ k, 0 ≤ lookupD (runFrom initState [Event.notifySkipped]).item_counts k) ∧
    ((runFrom initState [Event.notifySkipped]).scraped_apps ≤
        (applyEvent (runFrom initState [Event.notifySkipped])
          (Event.itemScraped "App")).scraped_apps ∧
     (runFrom initState [Event.notifySkipped]).skipped_apps ≤
        (applyEvent (runFrom initState [Event.notifySkipped])
          (Event.itemScraped "App")).skipped_apps ∧
     (runFrom initState [Event.notifySkipped]).error_count ≤
        (applyEvent (runFrom initState [Event.notifySkipped])
          (Event.itemScraped "App")).error_count ∧
     (runFrom initState [Event.notifySkipped]).rate_limit_count ≤
        (applyEvent (runFrom initState [Event.notifySkipped])
          (Event.itemScraped "App")).rate_limit_count ∧
     ∀ k, lookupD (runFrom initState [Event.notifySkipped]).item_counts k ≤
        lookupD (applyEvent (runFrom initState [Event.notifySkipped])
          (Event.itemScraped "App")).item_counts k) :=
  counters_nonneg_and_monotone [Event.notifySkipped] (by decide)
    (Event.itemScraped "App") (by decide)

/-! ### C2: bounded FIFO activity log -/

/-- Nine `spider_error` deliveries with distinct response URLs. -/
def nineErrors : List Event :=
  [.spiderError (some "boom") (some "e1"), .spiderError (some "boom") (some "e2"),
   .spiderError (some "boom") (some "e3"), .spiderError (some "boom") (some "e4"),
   .spiderError (some "boom") (some "e5"), .spiderError (some "boom") (some "e6"),
   .spiderError (some "boom") (some "e7"), .spiderError (some "boom") (some "e8"),
   .spiderError (some "boom") (some "e9")]

/-- C2: in every reachable state the activity log holds at most 8
entries, and after 9 crawl-error events with distinct subjects the log is
exactly the last 8 entries in application order while `error_count` is 9:
the first entry has been evicted FIFO-style. -/
theorem activity_log_bounded_fifo :
    (∀ es : List Event, (runFrom initState es).activity_log.length ≤ 8) ∧
    (runFrom initState nineErrors).error_count = 9 ∧
    (runFrom initState nineErrors).activity_log =
      [⟨.error, "e2", "boom"⟩, ⟨.error, "e3", "boom"⟩, ⟨.error, "e4", "boom"⟩,
       ⟨.error, "e5", "boom"⟩, ⟨.error, "e6", "boom"⟩, ⟨.error, "e7", "boom"⟩,
       ⟨.error, "e8", "boom"⟩, ⟨.error, "e9", "boom"⟩] := by
  refine ⟨fun es => ?_, by decide, by decide⟩
  exact (inv_runFrom es inv_init).2.2.2.2.2.1

/-! ### C10: no skip entry is ever logged -/

theorem buildLayout_activityLines (s : DashState) (now : ℚ) :
    (buildLayout s now).activityLines =
      if (s.activity_log.map formatEntry).isEmpty then [ActivityLine.placeholderWaiting]
      else s.activity_log.map formatEntry := rfl

theorem formatEntry_not_skip {e : LogEntry} (h : e.kind ≠ EntryKind.skip) :
    (formatEntry e).fromSkipBranch = false := by
  cases hk : e.kind <;> simp [formatEntry, hk, ActivityLine.fromSkipBranch]
  exact absurd hk h

/-- C10: in every reachable state the activity log contains no entry of
kind `skip` (`notify_skipped` appends nothing and no other reducer
appends a skip entry), so the renderer line coming from the `'skip'`
formatting branch never occurs. -/
theorem no_skip_entries (es : List Event) (now : ℚ) :
    (∀ e ∈ (runFrom initState es).activity_log, e.kind ≠ EntryKind.skip) ∧
    (∀ l ∈ (buildLayout (runFrom initState es) now).activityLines,
      l.fromSkipBranch = false) := by
  have h7 := (inv_runFrom es inv_init).2.2.2.2.2.2
  refine ⟨h7, ?_⟩
  intro l hl
  rw [buildLayout_activityLines] at hl
  split at hl
  · rcases List.mem_singleton.1 hl with rfl
    rfl
  · rcases List.mem_map.1 hl with ⟨x, hx, rfl⟩
    exact formatEntry_not_skip (h7 x hx)

/-- Witness for C10 at the concrete run of one `spider_error` event. -/
theorem no_skip_entries_witness :
    (⟨EntryKind.error, "unknown", "Unknown error"⟩ : LogEntry) ∈
      (runFrom initState [Event.spiderError none none]).activity_log ∧
    (⟨EntryKind.error, "unknown", "Unknown error"⟩ : LogEntry).kind ≠ EntryKind.skip ∧
    ActivityLine.error "unknown" "Unknown error" ∈
      (buildLayout (runFrom initState [Event.spiderError none none]) 0).activityLines ∧
    (ActivityLine.error "unknown" "Unknown error").fromSkipBranch = false :=
  ⟨by decide,
   (no_skip_entries [Event.spiderError none none] 0).1 _ (by decide),
   by decide,
   (no_skip_entries [Event.spiderError none none] 0).2 _ (by decide)⟩

/-! ### C3: response_received handles exactly the 429 status -/

/-- C3: on a 429 status, `response_received` bumps `rate_limit_count` by
exactly 1 and appends exactly one `rate_limit` entry with detail
`"429 Rate Limited"` and the request URL's last segment as subject; on
any other status the state is completely unchanged. -/
theorem response_received_only_429 (s : DashState) (status : Nat) (u : String) :
    (status = 429 → response_received s status u =
      { s with
        rate_limit_count := s.rate_limit_count + 1
        activity_log := dequeAppend s.activity_log
          ⟨.rate_limit, lastSegment u, "429 Rate Limited"⟩ }) ∧
    (status ≠ 429 → response_received s status u = s) := by
  constructor
  · intro h
    simp [response_received, h]
  · intro h
    simp [response_received, h]

/-- Witness for C3: a 429 and a 200 response on the initial state. -/
theorem response_received_only_429_witness :
    response_received initState 429 "a/b" =
      { initState with
        rate_limit_count := initState.rate_limit_count + 1
        activity_log := dequeAppend initState.activity_log
          ⟨.rate_limit, lastSegment "a/b", "429 Rate Limited"⟩ } ∧
    response_received initState 200 "a/b" = initState :=
  ⟨(response_received_only_429 initState 429 "a/b").1 rfl,
   (response_received_only_429 initState 200 "a/b").2 (by decide)⟩

/-! ### C4: item_scraped is total and drops unknown categories -/

/-- C4: for every category string, `item_scraped` is a total function: a
known key of `item_counts` has its tally incremented by 1 with every
other key's value, the key set and every other field unchanged, and an
unknown category leaves the whole state unchanged (no failure is
possible). -/
theorem item_scraped_total (s : DashState) (c : String) :
    (hasKey s.item_counts c = true →
      lookupD (item_scraped s c).item_counts c = lookupD s.item_counts c + 1 ∧
      (∀ k, k ≠ c →
        lookupD (item_scraped s c).item_counts k = lookupD s.item_counts k) ∧
      (item_scraped s c).item_counts.map Prod.fst = s.item_counts.map Prod.fst ∧
      (item_scraped s c).total_apps = s.total_apps ∧
      (item_scraped s c).scraped_apps = s.scraped_apps ∧
      (item_scraped s c).skipped_apps = s.skipped_apps ∧
      (item_scraped s c).error_count = s.error_count ∧
      (item_scraped s c).rate_limit_count = s.rate_limit_count ∧
      (item_scraped s c).activity_log = s.activity_log ∧
      (item_scraped s c).start_time = s.start_time) ∧
    (hasKey s.item_counts c = false → item_scraped s c = s) := by
  constructor
  · intro h
    have his : item_scraped s c = { s with item_counts := incKey s.item_counts c } := by
      simp [item_scraped, h]
    rw [his]
    exact ⟨lookupD_incKey_self h, fun k hk => lookupD_incKey_ne hk,
      incKey_keys _ _, rfl, rfl, rfl, rfl, rfl, rfl, rfl⟩
  · intro h
    simp [item_scraped, h]

/-- Witness for C4: the known category `"App"` and the unknown category
`"Widget"` on the initial state. -/
theorem item_scraped_total_witness :
    lookupD (item_scraped initState "App").item_counts "App" =
      lookupD initState.item_counts "App" + 1 ∧
    item_scraped initState "Widget" = initState :=
  ⟨((item_scraped_total initState "App").1 (by decide)).1,
   (item_scraped_total initState "Widget").2 (by decide)⟩

/-! ### C5: every division in the renderer is guarded -/

/-- C5: with `total_apps = 0` the progress line is the distinct
waiting/unknown view and the progress-fraction division is never reached
(it sits under the `total_apps > 0` guard, and the waiting constructor
carries no fraction); with elapsed time 0 the displayed speed is 0 rather
than a quotient by zero. -/
theorem render_guarded (s : DashState) (now : ℚ) :
    (s.total_apps = 0 → (buildLayout s now).progress = ProgressView.waiting) ∧
    (elapsedOf s now = 0 → (buildLayout s now).speed = 0) := by
  constructor
  · intro h
    simp [buildLayout, h]
  · intro h
    simp [buildLayout, h]

/-- Witness for C5: the initial state (unknown total, not yet started)
rendered at time 5. -/
theorem render_guarded_witness :
    initState.total_apps = 0 ∧
    (buildLayout initState 5).progress = ProgressView.waiting ∧
    elapsedOf initState 5 = 0 ∧
    (buildLayout initState 5).speed = 0 :=
  ⟨rfl, (render_guarded initState 5).1 rfl, rfl, (render_guarded initState 5).2 rfl⟩

/-! ### C9: the renderer is deterministic and mutation-free -/

/-- C9: rendering leaves the state unchanged, and rendering twice from
the same snapshot and the same clock value produces identical output. -/
theorem render_pure (s : DashState) (now : ℚ) :
    (renderStep s now).2 = s ∧
    (renderStep (renderStep s now).2 now).1 = (renderStep s now).1 :=
  ⟨rfl, rfl⟩

/-! ### C6: scraped + skipped vs total -/

/-- Counterexample to C6 as stated: the reducers do not preserve
`scraped_apps + skipped_apps ≤ total_apps`.  After
`set_total_apps 1` and two `notify_scraped` calls the state is reachable,
has `total_apps = 1 > 0`, and `scraped_apps + skipped_apps = 2 > 1`. -/
theorem scraped_le_total_counterexample :
    0 < (runFrom initState
      [Event.setTotalApps 1, Event.notifyScraped "a", Event.notifyScraped "b"]).total_apps ∧
    ¬((runFrom initState
        [Event.setTotalApps 1, Event.notifyScraped "a", Event.notifyScraped "b"]).scraped_apps +
      (runFrom initState
        [Event.setTotalApps 1, Event.notifyScraped "a", Event.notifyScraped "b"]).skipped_apps ≤
      (runFrom initState
        [Event.setTotalApps 1, Event.notifyScraped "a", Event.notifyScraped "b"]).total_apps) := by
  decide

/-- How many `notify_scraped` / `notify_skipped` events a sequence holds. -/
def scrapeSkipCount : List Event → ℤ
  | [] => 0
  | .notifyScraped _ :: t => scrapeSkipCount t + 1
  | .notifySkipped :: t => scrapeSkipCount t + 1
  | .itemScraped _ :: t => scrapeSkipCount t
  | .spiderError _ _ :: t => scrapeSkipCount t
  | .responseReceived _ _ :: t => scrapeSkipCount t
  | .setTotalApps _ :: t => scrapeSkipCount t
  | .spiderOpened _ :: t => scrapeSkipCount t

theorem scraped_add_skipped_apply (s : DashState) (e : Event) :
    (applyEvent s e).scraped_apps + (applyEvent s e).skipped_apps =
      s.scraped_apps + s.skipped_apps + scrapeSkipCount [e] := by
  cases e with
  | itemScraped c =>
    simp only [applyEvent, item_scraped, scrapeSkipCount]
    split <;> simp
  | spiderError f r => simp [applyEvent, spider_error, scrapeSkipCount]
  | responseReceived st u =>
    simp only [applyEvent, response_received, scrapeSkipCount]
    split <;> simp
  | notifyScraped u =>
    show s.scraped_apps + 1 + s.skipped_apps = _
    simp [scrapeSkipCount]
    omega
  | notifySkipped =>
    show s.scraped_apps + (s.skipped_apps + 1) = _
    simp [scrapeSkipCount]
    omega
  | setTotalApps n => simp [applyEvent, set_total_apps, scrapeSkipCount]
  | spiderOpened t => simp [applyEvent, spider_opened, scrapeSkipCount]

theorem scraped_add_skipped_runFrom (es : List Event) (s : DashState) :
    (runFrom s es).scraped_apps + (runFrom s es).skipped_apps =
      s.scraped_apps + s.skipped_apps + scrapeSkipCount es := by
  induction es generalizing s with
  | nil =>
    show s.scraped_apps + s.skipped_apps = _
    simp [scrapeSkipCount]
  | cons e t ih =>
    have h1 := ih (applyEvent s e)
    have h2 := scraped_add_skipped_apply s e
    have h3 : scrapeSkipCount (e :: t) = scrapeSkipCount [e] + scrapeSkipCount t := by
      cases e <;> simp [scrapeSkipCount] <;> omega
    show (runFrom (applyEvent s e) t).scraped_apps +
      (runFrom (applyEvent s e) t).skipped_apps = _
    rw [h1]
    omega

/-- C6 (amended): the reducers do not themselves enforce
`scraped_apps + skipped_apps ≤ total_apps`; instead
`scraped_apps + skipped_apps` always equals the number of
`notify_scraped` plus `notify_skipped` events applied, so the inequality
holds exactly when the environment delivers at most `total_apps` such
events — an assumption about the spider, not a property the dashboard
maintains. -/
theorem scraped_add_skipped_eq_event_count (es : List Event) :
    (runFrom initState es).scraped_apps + (runFrom initState es).skipped_apps =
      scrapeSkipCount es ∧
    (scrapeSkipCount es ≤ (runFrom initState es).total_apps →
      (runFrom initState es).scraped_apps + (runFrom initState es).skipped_apps ≤
        (runFrom initState es).total_apps) := by
  have h := scraped_add_skipped_runFrom es initState
  have h0s : initState.scraped_apps = 0 := rfl
  have h0k : initState.skipped_apps = 0 := rfl
  constructor
  · omega
  · intro hle
    omega

/-- Witness for C6 (amended): a run where the spider stays within the
announced total. -/
theorem scraped_add_skipped_eq_event_count_witness :
    (runFrom initState [Event.setTotalApps 5, Event.notifyScraped "a"]).scraped_apps +
      (runFrom initState [Event.setTotalApps 5, Event.notifyScraped "a"]).skipped_apps =
      scrapeSkipCount [Event.setTotalApps 5, Event.notifyScraped "a"] ∧
    (runFrom initState [Event.setTotalApps 5, Event.notifyScraped "a"]).scraped_apps +
      (runFrom initState [Event.setTotalApps 5, Event.notifyScraped "a"]).skipped_apps ≤
      (runFrom initState [Event.setTotalApps 5, Event.notifyScraped "a"]).total_apps :=
  ⟨(scraped_add_skipped_eq_event_count
      [Event.setTotalApps 5, Event.notifyScraped "a"]).1,
   (scraped_add_skipped_eq_event_count
      [Event.setTotalApps 5, Event.notifyScraped "a"]).2 (by decide)⟩

/-! ### C7: what notify_scraped logs -/

/-- Counterexample to C7 as stated: the detail of the appended `success`
entry is not a summary of any per-event items count — `notify_scraped`
has no such parameter — it is read from the state's current `"App"`
tally, so the very same call appends different details on two states. -/
theorem notify_scraped_detail_counterexample :
    ((notify_scraped initState "x").activity_log.getLastD
        ⟨.skip, "", ""⟩).detail ≠
      ((notify_scraped (runFrom initState [Event.itemScraped "App"])
          "x").activity_log.getLastD ⟨.skip, "", ""⟩).detail ∧
    ((notify_scraped initState "x").activity_log.getLastD
        ⟨.skip, "", ""⟩).detail = "0 apps total" ∧
    ((notify_scraped (runFrom initState [Event.itemScraped "App"])
        "x").activity_log.getLastD ⟨.skip, "", ""⟩).detail = "1 apps total" := by
  decide

/-- C7 (amended): `notify_scraped` increments `scraped_apps` by exactly 1
and appends exactly one `success` entry whose subject is the URL's last
path segment after stripping trailing slashes and whose detail reports
the state's current `"App"` tally, formatted as `'<n> apps total'`; all
other fields are unchanged. -/
theorem notify_scraped_effect (s : DashState) (u : String) :
    (notify_scraped s u).scraped_apps = s.scraped_apps + 1 ∧
    (notify_scraped s u).activity_log.getLast? =
      some ⟨.success, lastSegment (rstripSlash u),
        toString (lookupD s.item_counts "App") ++ " apps total"⟩ ∧
    (notify_scraped s u).activity_log.length =
      min (s.activity_log.length + 1) 8 ∧
    (notify_scraped s u).item_counts = s.item_counts ∧
    (notify_scraped s u).skipped_apps = s.skipped_apps ∧
    (notify_scraped s u).error_count = s.error_count ∧
    (notify_scraped s u).rate_limit_count = s.rate_limit_count ∧
    (notify_scraped s u).total_apps = s.total_apps ∧
    (notify_scraped s u).start_time = s.start_time := by
  refine ⟨rfl, dequeAppend_getLast _ _, ?_, rfl, rfl, rfl, rfl, rfl, rfl⟩
  have h := dequeAppend_length s.activity_log
    ⟨.success, lastSegment (rstripSlash u),
      toString (lookupD s.item_counts "App") ++ " apps total"⟩
  simpa [LOG_CAP] using h

/-! ### C8: start_time across repeated spider_opened calls -/

/-- Counterexample to C8 as stated: `spider_opened` assigns
`start_time = time.time()` unconditionally, so a second crawl-started
event overwrites the first timestamp instead of leaving it unchanged. -/
theorem start_time_overwritten_counterexample :
    (runFrom initState [Event.spiderOpened 1, Event.spiderOpened 2]).start_time =
      some 2 ∧
    (runFrom initState [Event.spiderOpened 1, Event.spiderOpened 2]).start_time ≠
      some 1 := by
  constructor
  · rfl
  · decide

/-- C8 (amended): `spider_opened` sets `start_time` to the current time
unconditionally; after two crawl-started events the second timestamp
stands — it is set once per run only because the host fires the signal
once. -/
theorem spider_opened_sets_start_time (s : DashState) (t1 t2 : ℚ) :
    (spider_opened s t1).start_time = some t1 ∧
    (spider_opened (spider_opened s t1) t2).start_time = some t2 :=
  ⟨rfl, rfl⟩

end Shopify
